import Mathlib

/-!
Shallow embedding of the `itam` IT asset-inventory application
(`assets/models.py`, `assets/views.py`, `assets/admin.py`) and proofs of
the audit-trail, assignment-lifecycle, reporting and bulk-import claims.

Dates are modelled as `Int` day numbers; nullable columns as `Option`;
Django querysets as Lean lists.  Each definition mirrors one model,
view handler or admin hook of the source.
-/

namespace Itam

/-- `Employee` rows (models.py): the fields read by the lifecycle views. -/
structure Employee where
  employee_id : String
  first_name : String
  last_name : String
  email : String
  is_active : Bool
  deriving DecidableEq, Repr

/-- `Employee.full_name` property (models.py): first and last name. -/
def Employee.full_name (e : Employee) : String :=
  e.first_name ++ " " ++ e.last_name

/-- `Employee.__str__` (models.py): full name followed by the employee id
in parentheses. -/
def Employee.str (e : Employee) : String :=
  e.first_name ++ " " ++ e.last_name ++ " (" ++ e.employee_id ++ ")"

/-- `Asset` rows (models.py). `status` and `condition` are plain strings,
as in the source, where bulk import can store arbitrary lowercased text.
Foreign keys to Category/Location/Vendor are ids; `assigned_to` carries
the related `Employee` row itself, since the views read its name fields. -/
structure Asset where
  id : Nat
  asset_tag : String
  name : String
  description : String
  category : Option Nat
  manufacturer : String
  model : String
  serial_number : Option String
  status : String
  condition : String
  location : Option Nat
  assigned_to : Option Employee
  assigned_date : Option Int
  vendor : Option Nat
  purchase_date : Option Int
  purchase_cost : Option Int
  warranty_expiry : Option Int
  notes : String
  created_by : Option Nat
  deriving DecidableEq, Repr

/-- `Asset.is_under_warranty` property (models.py): when `warranty_expiry`
is set, compare it with today's date; otherwise `False`. -/
def Asset.is_under_warranty (a : Asset) (today : Int) : Bool :=
  match a.warranty_expiry with
  | some d => d ≥ today
  | none => false

/-- `AssetHistory` rows (models.py): action, description, actor and the
old/new value snapshots.  `asset` is the owning asset's id
(`on_delete=CASCADE` in the source). -/
structure AssetHistory where
  asset : Nat
  action : String
  description : String
  performed_by : Option Nat
  old_value : Option String
  new_value : Option String
  deriving DecidableEq, Repr

/-- Result of one assign/unassign POST handler: the saved asset, the
history table afterwards, the notification emails attempted, and the
HTTP response kind. -/
structure ViewResult where
  asset : Asset
  history : List AssetHistory
  emails : List String
  response : String
  deriving DecidableEq, Repr

/-- `assign_asset` POST branch (views.py lines 190-235).  With an
employee selected it sets `assigned_to`, `assigned_date = today`,
`status = 'assigned'`, appends one `AssetHistory` row
(`old_value = str(old_assignee)` or `'None'`, `new_value = full_name`),
attempts an email when requested and the employee has one, and
redirects; with no employee selected it just re-renders the form. -/
def assign_asset_post (a : Asset) (hist : List AssetHistory)
    (emp : Option Employee) (send_email : Bool) (today : Int) (user : Nat) :
    ViewResult :=
  match emp with
  | none => ⟨a, hist, [], "render:assign_asset"⟩
  | some employee =>
    let old_assignee := a.assigned_to
    let a' := { a with assigned_to := some employee,
                       assigned_date := some today,
                       status := "assigned" }
    let h : AssetHistory :=
      { asset := a.id
        action := "assigned"
        description := "Asset assigned to " ++ employee.full_name
        performed_by := some user
        old_value := some (match old_assignee with
          | some o => o.str
          | none => "None")
        new_value := some employee.full_name }
    let emails :=
      if send_email ∧ employee.email ≠ "" then
        ["assignment:" ++ employee.email]
      else []
    ⟨a', hist ++ [h], emails, "redirect:asset_detail"⟩

/-- `unassign_asset` POST branch (views.py lines 239-278).  With an
existing assignee it clears `assigned_to`/`assigned_date`, sets
`status = 'available'`, appends one `AssetHistory` row
(`old_value = full_name`, `new_value = 'None'`) and attempts an email
when requested; with no assignee it does nothing.  Both cases redirect
to the asset detail page. -/
def unassign_asset_post (a : Asset) (hist : List AssetHistory)
    (send_email : Bool) (user : Nat) : ViewResult :=
  match a.assigned_to with
  | none => ⟨a, hist, [], "redirect:asset_detail"⟩
  | some old_assignee =>
    let a' := { a with assigned_to := none,
                       assigned_date := none,
                       status := "available" }
    let h : AssetHistory :=
      { asset := a.id
        action := "unassigned"
        description := "Asset unassigned from " ++ old_assignee.full_name
        performed_by := some user
        old_value := some old_assignee.full_name
        new_value := some "None" }
    let emails :=
      if send_email ∧ old_assignee.email ≠ "" then
        ["unassignment:" ++ old_assignee.email]
      else []
    ⟨a', hist ++ [h], emails, "redirect:asset_detail"⟩

/-- `reports` warranty bucket (views.py line 1103):
`Asset.objects.filter(warranty_expiry__gte=today).count()` — null
`warranty_expiry` is excluded by the lookup. -/
def warranty_valid (assets : List Asset) (today : Int) : Nat :=
  assets.countP (fun a => match a.warranty_expiry with
    | some d => decide (d ≥ today)
    | none => false)

/-- `reports` warranty bucket (views.py lines 1104-1107):
assets with `today <= warranty_expiry <= today + 30`. -/
def warranty_expiring (assets : List Asset) (today : Int) : Nat :=
  assets.countP (fun a => match a.warranty_expiry with
    | some d => decide (d ≥ today ∧ d ≤ today + 30)
    | none => false)

/-- `reports` warranty bucket (views.py line 1108):
`Asset.objects.filter(warranty_expiry__lt=today).count()`. -/
def warranty_expired (assets : List Asset) (today : Int) : Nat :=
  assets.countP (fun a => match a.warranty_expiry with
    | some d => decide (d < today)
    | none => false)

/-- Number of assets whose `warranty_expiry` is set (non-null). -/
def warranty_set_count (assets : List Asset) : Nat :=
  assets.countP (fun a => a.warranty_expiry.isSome)

/-- `Category` rows (models.py): bulk import matches and creates them
by name. -/
structure Category where
  id : Nat
  name : String
  deriving DecidableEq, Repr

/-- `Location` rows (models.py), as used by bulk import (by name). -/
structure Location where
  id : Nat
  name : String
  deriving DecidableEq, Repr

/-- `Vendor` rows (models.py), as used by bulk import (by name). -/
structure Vendor where
  id : Nat
  name : String
  deriving DecidableEq, Repr

/-- The relational store: one list per table touched by the modelled
operations, plus the auto-increment counters. -/
structure DB where
  assets : List Asset
  history : List AssetHistory
  categories : List Category
  locations : List Location
  vendors : List Vendor
  next_asset_id : Nat
  next_category_id : Nat
  next_location_id : Nat
  next_vendor_id : Nat
  deriving DecidableEq, Repr

/-- One spreadsheet row of the bulk-import file (views.py lines
425-465): `asset_tag` and `name` are required columns, everything else
is optional (`none` models a missing column or a `pd.notna` failure).
`purchase_cost` is kept as the raw cell text because `float(...)` can
raise on it. -/
structure Row where
  asset_tag : String
  name : String
  description : Option String
  category : Option String
  manufacturer : Option String
  model : Option String
  serial_number : Option String
  status : Option String
  condition : Option String
  location : Option String
  vendor : Option String
  purchase_cost : Option String
  notes : Option String
  deriving DecidableEq, Repr

/-- Python `str.strip()` (used on every imported cell): drop whitespace
from both ends. -/
def pyStrip (s : String) : String :=
  String.mk
    (((s.data.dropWhile Char.isWhitespace).reverse.dropWhile
      Char.isWhitespace).reverse)

/-- Python `str.lower()` (used on `status`/`condition` cells). -/
def pyLower (s : String) : String :=
  String.mk (s.data.map Char.toLower)

/-- Python `float(cell)` as used on `purchase_cost` (views.py line 462),
modelled for integer-valued text: digit-only text parses, anything else
raises `ValueError` (`none`). -/
def pyFloat (s : String) : Option Int :=
  if s.data ≠ [] ∧ s.data.all Char.isDigit then
    some (Int.ofNat (s.data.foldl (fun n c => n * 10 + (c.toNat - 48)) 0))
  else none

/-- `Category.objects.get_or_create(name=str(cell).strip())` (views.py
lines 430-432): reuse the unique match, create on no match, and raise
`MultipleObjectsReturned` when several categories share the name (the
`name` column has no unique constraint). -/
def get_or_create_category (db : DB) (cell : Option String) :
    Except String (Option Nat × DB) :=
  match cell with
  | none => .ok (none, db)
  | some s =>
    match db.categories.filter (fun c => c.name = pyStrip s) with
    | [] =>
      let c : Category := ⟨db.next_category_id, pyStrip s⟩
      .ok (some c.id, { db with categories := db.categories ++ [c],
                                next_category_id := db.next_category_id + 1 })
    | [c] => .ok (some c.id, db)
    | _ :: _ :: _ => .error "get() returned more than one Category"

/-- `Location.objects.get_or_create(name=str(cell).strip())` (views.py
lines 436-439). -/
def get_or_create_location (db : DB) (cell : Option String) :
    Except String (Option Nat × DB) :=
  match cell with
  | none => .ok (none, db)
  | some s =>
    match db.locations.filter (fun c => c.name = pyStrip s) with
    | [] =>
      let c : Location := ⟨db.next_location_id, pyStrip s⟩
      .ok (some c.id, { db with locations := db.locations ++ [c],
                                next_location_id := db.next_location_id + 1 })
    | [c] => .ok (some c.id, db)
    | _ :: _ :: _ => .error "get() returned more than one Location"

/-- `Vendor.objects.get_or_create(name=str(cell).strip())` (views.py
lines 443-446). -/
def get_or_create_vendor (db : DB) (cell : Option String) :
    Except String (Option Nat × DB) :=
  match cell with
  | none => .ok (none, db)
  | some s =>
    match db.vendors.filter (fun c => c.name = pyStrip s) with
    | [] =>
      let c : Vendor := ⟨db.next_vendor_id, pyStrip s⟩
      .ok (some c.id, { db with vendors := db.vendors ++ [c],
                                next_vendor_id := db.next_vendor_id + 1 })
    | [c] => .ok (some c.id, db)
    | _ :: _ :: _ => .error "get() returned more than one Vendor"

/-- The `defaults={...}` mapping of `Asset.objects.update_or_create`
(views.py lines 451-465), applied to an asset row: missing text cells
become `''` (or `None` for `serial_number`), `status`/`condition` are
lowercased with defaults `available`/`new`, and `created_by` is the
importing user.  `asset_tag`, assignment fields, `purchase_date` and
`warranty_expiry` are not in the defaults and keep their values. -/
def import_defaults (a : Asset) (row : Row)
    (cat loc ven : Option Nat) (cost : Option Int) (user : Nat) : Asset :=
  { a with
    name := pyStrip row.name
    description := (row.description.map pyStrip).getD ""
    category := cat
    manufacturer := (row.manufacturer.map pyStrip).getD ""
    model := (row.model.map pyStrip).getD ""
    serial_number := row.serial_number.map pyStrip
    status := (row.status.map (fun s => pyLower (pyStrip s))).getD "available"
    condition := (row.condition.map (fun s => pyLower (pyStrip s))).getD "new"
    location := loc
    vendor := ven
    purchase_cost := cost
    notes := (row.notes.map pyStrip).getD ""
    created_by := some user }

/-- `Asset.objects.update_or_create(asset_tag=..., defaults=...)`
(views.py line 449): update the asset with the (unique) tag in place, or
create a new one; the boolean is Django's `created` flag. -/
def update_or_create_asset (db : DB) (tag : String) (row : Row)
    (cat loc ven : Option Nat) (cost : Option Int) (user : Nat) :
    Asset × DB × Bool :=
  match db.assets.find? (fun a => a.asset_tag = tag) with
  | some a0 =>
    let a' := import_defaults a0 row cat loc ven cost user
    (a', { db with assets :=
      db.assets.map (fun x => if x.asset_tag = tag then a' else x) }, false)
  | none =>
    let base : Asset := ⟨db.next_asset_id, tag, "", "", none, "", "", none,
      "available", "new", none, none, none, none, none, none, none, "", none⟩
    let a' := import_defaults base row cat loc ven cost user
    (a', { db with assets := db.assets ++ [a'],
                   next_asset_id := db.next_asset_id + 1 }, true)

/-- Tail of one import row (views.py lines 449-477): the upsert, then a
single `created` history row — but only when the asset was newly
created. -/
def finish_import_row (db : DB) (row : Row) (cat loc ven : Option Nat)
    (cost : Option Int) (user : Nat) : DB × Option String :=
  match update_or_create_asset db (pyStrip row.asset_tag) row cat loc ven
      cost user with
  | (a', db', true) =>
    ({ db' with history := db'.history ++
        [⟨a'.id, "created", "Asset imported via bulk upload", some user,
          none, none⟩] }, none)
  | (_, db', false) => (db', none)

/-- One iteration of the bulk-import loop body (views.py lines 426-481):
look up or create category, location and vendor, parse the cost cell,
then upsert the asset.  A raise at any point is caught by the per-row
`except`; effects already committed (created lookup rows) are kept, and
the error text is returned. -/
def process_import_row (db : DB) (row : Row) (user : Nat) :
    DB × Option String :=
  match get_or_create_category db row.category with
  | .error e => (db, some e)
  | .ok (cat, db₁) =>
    match get_or_create_location db₁ row.location with
    | .error e => (db₁, some e)
    | .ok (loc, db₂) =>
      match get_or_create_vendor db₂ row.vendor with
      | .error e => (db₂, some e)
      | .ok (ven, db₃) =>
        match row.purchase_cost with
        | none => finish_import_row db₃ row cat loc ven none user
        | some s =>
          match pyFloat s with
          | none =>
            (db₃, some ("could not convert string to float: " ++ s))
          | some v => finish_import_row db₃ row cat loc ven (some v) user

/-- Outcome of a whole bulk import: final store, `success_count`,
`error_count` and the collected per-row error strings. -/
structure ImportResult where
  db : DB
  success_count : Nat
  error_count : Nat
  errors : List String
  deriving DecidableEq, Repr

/-- The `for index, row in df.iterrows()` loop (views.py lines
425-481), carrying the loop counters; a failing row appends
`"Row {index + 2}: ..."` to the error list and the loop continues with
the next row. -/
def import_rows (db : DB) (rows : List Row) (idx : Nat) (user : Nat)
    (succ errs : Nat) (msgs : List String) : ImportResult :=
  match rows with
  | [] => ⟨db, succ, errs, msgs⟩
  | r :: rest =>
    match process_import_row db r user with
    | (db', none) => import_rows db' rest (idx + 1) user (succ + 1) errs msgs
    | (db', some e) =>
      import_rows db' rest (idx + 1) user succ (errs + 1)
        (msgs ++ ["Row " ++ toString (idx + 2) ++ ": " ++ e])

/-- `bulk_import` POST (views.py lines 421-490): run every row of the
file through the loop. -/
def bulk_import (db : DB) (rows : List Row) (user : Nat) : ImportResult :=
  import_rows db rows 0 user 0 0 []

/-- One Django `messages` entry with its level. -/
inductive Msg where
  | success (text : String)
  | warning (text : String)
  | mError (text : String)
  deriving DecidableEq, Repr

/-- The user-facing messages emitted after the loop (views.py lines
483-488): a success count when any row imported, a warning plus the
first 5 collected error strings when any row failed. -/
def bulk_import_messages (r : ImportResult) : List Msg :=
  (if r.success_count > 0 then
    [Msg.success ("Successfully imported " ++ toString r.success_count
      ++ " assets")]
  else []) ++
  (if r.error_count > 0 then
    Msg.warning (toString r.error_count ++ " rows had errors") ::
      (r.errors.take 5).map Msg.mError
  else [])

/-- The error-level texts among a message list. -/
def errorTexts (msgs : List Msg) : List String :=
  msgs.filterMap (fun m => match m with
    | .mError t => some t
    | _ => none)

/-- `AssetAdmin.save_model` (admin.py lines 151-162): on add it stamps
`created_by`, saves the new row and appends one `created` history row;
on change it only saves the edited row. -/
def admin_save_model (db : DB) (obj : Asset) (change : Bool) (user : Nat) :
    DB :=
  if change then
    { db with assets := db.assets.map (fun x => if x.id = obj.id then obj
        else x) }
  else
    let objNew := { obj with created_by := some user, id := db.next_asset_id }
    { db with
        assets := db.assets ++ [objNew]
        next_asset_id := db.next_asset_id + 1
        history := db.history ++
          [⟨objNew.id, "created",
            "Asset " ++ objNew.asset_tag ++ " was created", some user,
            none, none⟩] }

/-- Asset deletion, reachable through the registered `AssetAdmin`
(admin.py registers `Asset` without disabling deletion): per models.py,
`AssetHistory.asset` has `on_delete=models.CASCADE`, so the asset's
history rows are deleted together with it. -/
def delete_asset (db : DB) (pk : Nat) : DB :=
  { db with assets := db.assets.filter (fun a => a.id ≠ pk)
            history := db.history.filter (fun h => h.asset ≠ pk) }

/-- Whether the store holds an asset with the given tag. -/
def hasTag (db : DB) (t : String) : Bool :=
  db.assets.any (fun a => a.asset_tag = t)

/-- Number of categories with a given name. -/
def countCat (cats : List Category) (n : String) : Nat :=
  cats.countP (fun c => c.name = n)

/-- Whether an import row's category cell, stripped, equals the given
name. -/
def row_uses_category (r : Row) (n : String) : Bool :=
  match r.category with
  | some s => pyStrip s = n
  | none => false

/-- The category table after the category lookup step of one import
row, whatever its outcome. -/
def cat_step_categories (db : DB) (cell : Option String) : List Category :=
  match get_or_create_category db cell with
  | .ok p => p.2.categories
  | .error _ => db.categories

/-- Whether a raw category cell, stripped, equals the given name. -/
def cellUses (cell : Option String) (n : String) : Bool :=
  match cell with
  | some s => pyStrip s = n
  | none => false

/-- The category lookup step never touches assets or history. -/
theorem get_or_create_category_preserves (db : DB) (cell : Option String)
    (p : Option Nat × DB) (h : get_or_create_category db cell = .ok p) :
    p.2.assets = db.assets ∧ p.2.history = db.history := by
  unfold get_or_create_category at h
  split at h
  · cases h; exact ⟨rfl, rfl⟩
  · split at h
    · cases h; exact ⟨rfl, rfl⟩
    · cases h; exact ⟨rfl, rfl⟩
    · cases h

/-- The location lookup step never touches categories, assets or
history. -/
theorem get_or_create_location_preserves (db : DB) (cell : Option String)
    (p : Option Nat × DB) (h : get_or_create_location db cell = .ok p) :
    p.2.categories = db.categories ∧ p.2.assets = db.assets ∧
      p.2.history = db.history := by
  unfold get_or_create_location at h
  split at h
  · cases h; exact ⟨rfl, rfl, rfl⟩
  · split at h
    · cases h; exact ⟨rfl, rfl, rfl⟩
    · cases h; exact ⟨rfl, rfl, rfl⟩
    · cases h

/-- The vendor lookup step never touches categories, assets or
history. -/
theorem get_or_create_vendor_preserves (db : DB) (cell : Option String)
    (p : Option Nat × DB) (h : get_or_create_vendor db cell = .ok p) :
    p.2.categories = db.categories ∧ p.2.assets = db.assets ∧
      p.2.history = db.history := by
  unfold get_or_create_vendor at h
  split at h
  · cases h; exact ⟨rfl, rfl, rfl⟩
  · split at h
    · cases h; exact ⟨rfl, rfl, rfl⟩
    · cases h; exact ⟨rfl, rfl, rfl⟩
    · cases h

/-- The asset upsert never touches categories or history. -/
theorem update_or_create_asset_preserves (db : DB) (tag : String) (row : Row)
    (cat loc ven : Option Nat) (cost : Option Int) (user : Nat) :
    (update_or_create_asset db tag row cat loc ven cost user).2.1.categories
        = db.categories ∧
    (update_or_create_asset db tag row cat loc ven cost user).2.1.history
        = db.history := by
  unfold update_or_create_asset
  split
  · exact ⟨rfl, rfl⟩
  · exact ⟨rfl, rfl⟩

/-- The tail of one import row never touches the category table. -/
theorem finish_import_row_categories (db : DB) (row : Row)
    (cat loc ven : Option Nat) (cost : Option Int) (user : Nat) :
    (finish_import_row db row cat loc ven cost user).1.categories
      = db.categories := by
  have h := update_or_create_asset_preserves db (pyStrip row.asset_tag) row
    cat loc ven cost user
  rcases hu : update_or_create_asset db (pyStrip row.asset_tag) row cat loc ven
    cost user with ⟨a', db', created⟩
  rw [hu] at h
  cases created <;> simp only [finish_import_row, hu] <;> exact h.1

/-- Effect of the category lookup step on the count of categories with
a given name: a fresh stripped name goes from 0 to 1 occurrences,
everything else is left as it was (a unique match is reused, several
matches raise). -/
theorem cat_step_count (db : DB) (cell : Option String) (n : String) :
    countCat (cat_step_categories db cell) n =
      if countCat db.categories n = 0 ∧ cellUses cell n = true then 1
      else countCat db.categories n := by
  unfold cat_step_categories get_or_create_category
  cases cell with
  | none => simp [cellUses]
  | some s =>
    simp only [cellUses]
    cases hf : db.categories.filter (fun c => decide (c.name = pyStrip s)) with
    | nil =>
      have h0 : countCat db.categories (pyStrip s) = 0 := by
        unfold countCat
        rw [List.countP_eq_length_filter, hf]
        rfl
      simp only [hf]
      by_cases hn : pyStrip s = n
      · subst hn
        unfold countCat at h0 ⊢
        simp [List.countP_append, h0]
      · unfold countCat at h0 ⊢
        rw [List.countP_append]
        have hone : List.countP (fun c => decide (c.name = n))
            [Category.mk db.next_category_id (pyStrip s)] = 0 := by
          simp [hn]
        rw [hone, if_neg]
        · omega
        · rintro ⟨h1, h2⟩
          exact hn (by simpa using h2)
    | cons c rest =>
      cases rest with
      | nil =>
        have h1 : countCat db.categories (pyStrip s) = 1 := by
          unfold countCat
          rw [List.countP_eq_length_filter, hf]
          rfl
        simp only [hf]
        rw [if_neg]
        rintro ⟨hz, h2⟩
        have : pyStrip s = n := by simpa using h2
        rw [← this] at hz
        omega
      | cons d rest2 =>
        have h2 : countCat db.categories (pyStrip s) = rest2.length + 2 := by
          unfold countCat
          rw [List.countP_eq_length_filter, hf]
          simp
        simp only [hf]
        rw [if_neg]
        rintro ⟨hz, hu⟩
        have : pyStrip s = n := by simpa using hu
        rw [← this] at hz
        omega

/-- Only the category lookup step of an import row changes the category
table: the whole row leaves it exactly as that step did. -/
theorem process_row_categories (db : DB) (row : Row) (user : Nat) :
    (process_import_row db row user).1.categories
      = cat_step_categories db row.category := by
  unfold process_import_row
  split
  next e heq => simp [cat_step_categories, heq]
  next cat db₁ heq =>
    have hcs : cat_step_categories db row.category = db₁.categories := by
      simp [cat_step_categories, heq]
    rw [hcs]
    split
    next e2 heq2 => rfl
    next loc db₂ heq2 =>
      have h2 := (get_or_create_location_preserves db₁ row.location _ heq2).1
      split
      next e3 heq3 => exact h2
      next ven db₃ heq3 =>
        have h3 := (get_or_create_vendor_preserves db₂ row.vendor _ heq3).1
        split
        next hcost =>
          rw [finish_import_row_categories]
          rw [h3, h2]
        next s hcost =>
          split
          next hpf => simpa using h3.trans h2
          next v hpf =>
            rw [finish_import_row_categories]
            rw [h3, h2]

/-- Effect of one import row on the count of categories with a given
name (follows from `cat_step_count`). -/
theorem process_row_category_count (db : DB) (row : Row) (user : Nat)
    (n : String) :
    countCat (process_import_row db row user).1.categories n =
      if countCat db.categories n = 0 ∧ row_uses_category row n = true
      then 1 else countCat db.categories n := by
  rw [process_row_categories]
  exact cat_step_count db row.category n

/-- Effect of the whole import loop on the count of categories with a
given name: a name that starts absent and is used by some row ends with
exactly one category; any other count is unchanged. -/
theorem import_rows_category_count (rows : List Row) (db : DB) (idx : Nat)
    (user : Nat) (succ errs : Nat) (msgs : List String) (n : String) :
    countCat (import_rows db rows idx user succ errs msgs).db.categories n =
      if countCat db.categories n = 0 ∧
          rows.any (fun r => row_uses_category r n) = true
      then 1 else countCat db.categories n := by
  induction rows generalizing db idx succ errs msgs with
  | nil => simp [import_rows]
  | cons r rest ih =>
    have hstep := process_row_category_count db r user n
    rcases hp : process_import_row db r user with ⟨db', err⟩
    rw [hp] at hstep
    have hrec :
        countCat (import_rows db (r :: rest) idx user succ errs msgs).db.categories n =
        if countCat db'.categories n = 0 ∧
            rest.any (fun x => row_uses_category x n) = true
        then 1 else countCat db'.categories n := by
      cases err with
      | none =>
        simpa [import_rows, hp] using ih db' (idx + 1) (succ + 1) errs msgs
      | some e =>
        simpa [import_rows, hp] using
          ih db' (idx + 1) succ (errs + 1)
            (msgs ++ ["Row " ++ toString (idx + 2) ++ ": " ++ e])
    rw [hrec, hstep]
    by_cases h0 : countCat db.categories n = 0
    · by_cases hr : row_uses_category r n = true
      · simp [h0, hr, List.any_cons]
      · simp only [h0, hr, true_and, and_false, if_false, List.any_cons]
        simp [hr, h0]
    · have : ¬(countCat db.categories n = 0 ∧
          row_uses_category r n = true) := fun h => h0 h.1
      rw [if_neg this]
      simp only [List.any_cons]
      by_cases hrest : rest.any (fun x => row_uses_category x n) = true
      · simp [hrest, h0]
      · simp [hrest, h0]

/-- `List.any` agrees with the success of `List.find?`. -/
theorem any_eq_find?_isSome {α : Type} (p : α → Bool) (l : List α) :
    l.any p = (l.find? p).isSome := by
  induction l with
  | nil => rfl
  | cons a l ih =>
    by_cases h : p a = true
    · simp [List.any_cons, h, List.find?, ih]
    · simp [List.any_cons, h, List.find?, ih]

/-- Django's `created` flag of the upsert is true exactly when no asset
with the tag existed. -/
theorem update_or_create_created (db : DB) (tag : String) (row : Row)
    (cat loc ven : Option Nat) (cost : Option Int) (user : Nat) :
    (update_or_create_asset db tag row cat loc ven cost user).2.2
      = !(hasTag db tag) := by
  unfold update_or_create_asset hasTag
  rw [any_eq_find?_isSome]
  cases hf : db.assets.find? (fun a => decide (a.asset_tag = tag)) <;>
    simp [hf]

/-- The tail of an import row appends exactly one `created` history row
when the tag was fresh, and leaves history untouched when it updated an
existing asset. -/
theorem finish_import_row_history (db : DB) (row : Row)
    (cat loc ven : Option Nat) (cost : Option Int) (user : Nat) :
    (hasTag db (pyStrip row.asset_tag) = true →
      (finish_import_row db row cat loc ven cost user).1.history
        = db.history) ∧
    (hasTag db (pyStrip row.asset_tag) = false →
      ∃ r, (finish_import_row db row cat loc ven cost user).1.history
        = db.history ++ [r] ∧ r.action = "created") := by
  have hc := update_or_create_created db (pyStrip row.asset_tag) row cat loc ven
    cost user
  have hp := update_or_create_asset_preserves db (pyStrip row.asset_tag) row
    cat loc ven cost user
  rcases hu : update_or_create_asset db (pyStrip row.asset_tag) row cat loc ven
    cost user with ⟨a', db', created⟩
  rw [hu] at hc hp
  have hph : db'.history = db.history := hp.2
  constructor
  · intro ht
    rw [ht] at hc
    simp only [Bool.not_true] at hc
    cases created with
    | false =>
      simp only [finish_import_row, hu]
      exact hph
    | true => simp at hc
  · intro ht
    rw [ht] at hc
    simp only [Bool.not_false] at hc
    cases created with
    | false => simp at hc
    | true =>
      refine ⟨⟨a'.id, "created", "Asset imported via bulk upload",
        some user, none, none⟩, ?_, rfl⟩
      simp only [finish_import_row, hu, hph]

/-- History effect of one import row: it only ever appends, and on a
successful row it appends exactly one `created` row for a fresh tag and
nothing for an update of an existing tag. -/
theorem process_row_history (db : DB) (row : Row) (user : Nat) :
    (∃ t, (process_import_row db row user).1.history = db.history ++ t) ∧
    ((process_import_row db row user).2 = none →
      (hasTag db (pyStrip row.asset_tag) = true →
        (process_import_row db row user).1.history = db.history) ∧
      (hasTag db (pyStrip row.asset_tag) = false →
        ∃ r, (process_import_row db row user).1.history
          = db.history ++ [r] ∧ r.action = "created")) := by
  unfold process_import_row
  split
  next e heq => exact ⟨⟨[], by simp⟩, by intro h; cases h⟩
  next cat db₁ heq =>
    have h1 := get_or_create_category_preserves db row.category _ heq
    have h1a : db₁.assets = db.assets := h1.1
    have h1h : db₁.history = db.history := h1.2
    split
    next e2 heq2 =>
      exact ⟨⟨[], by simp [h1h]⟩, by intro h; cases h⟩
    next loc db₂ heq2 =>
      have h2 := get_or_create_location_preserves db₁ row.location _ heq2
      have h2a : db₂.assets = db₁.assets := h2.2.1
      have h2h : db₂.history = db₁.history := h2.2.2
      split
      next e3 heq3 =>
        exact ⟨⟨[], by simp [h2h, h1h]⟩, by intro h; cases h⟩
      next ven db₃ heq3 =>
        have h3 := get_or_create_vendor_preserves db₂ row.vendor _ heq3
        have h3a : db₃.assets = db₂.assets := h3.2.1
        have h3h : db₃.history = db₂.history := h3.2.2
        have hhist : db₃.history = db.history := by
          rw [h3h, h2h, h1h]
        have hassets : db₃.assets = db.assets := by
          rw [h3a, h2a, h1a]
        have htag : ∀ t, hasTag db₃ t = hasTag db t := by
          intro t
          unfold hasTag
          rw [hassets]
        split
        next hcost =>
          have hf := finish_import_row_history db₃ row cat loc ven none user
          constructor
          · by_cases ht : hasTag db₃ (pyStrip row.asset_tag) = true
            · exact ⟨[], by rw [hf.1 ht, hhist]; simp⟩
            · obtain ⟨r, hr, _⟩ := hf.2 (by simpa using ht)
              exact ⟨[r], by rw [hr, hhist]⟩
          · intro _
            constructor
            · intro ht
              rw [hf.1 (by rw [htag]; exact ht), hhist]
            · intro ht
              obtain ⟨r, hr, ha⟩ := hf.2 (by rw [htag]; exact ht)
              exact ⟨r, by rw [hr, hhist], ha⟩
        next s hcost =>
          split
          next hpf =>
            exact ⟨⟨[], by simp [hhist]⟩, by intro h; cases h⟩
          next v hpf =>
            have hf := finish_import_row_history db₃ row cat loc ven
              (some v) user
            constructor
            · by_cases ht : hasTag db₃ (pyStrip row.asset_tag) = true
              · exact ⟨[], by rw [hf.1 ht, hhist]; simp⟩
              · obtain ⟨r, hr, _⟩ := hf.2 (by simpa using ht)
                exact ⟨[r], by rw [hr, hhist]⟩
            · intro _
              constructor
              · intro ht
                rw [hf.1 (by rw [htag]; exact ht), hhist]
              · intro ht
                obtain ⟨r, hr, ha⟩ := hf.2 (by rw [htag]; exact ht)
                exact ⟨r, by rw [hr, hhist], ha⟩

/-- The whole import loop only appends to history. -/
theorem import_rows_history (rows : List Row) (db : DB) (idx user succ
    errs : Nat) (msgs : List String) :
    ∃ t, (import_rows db rows idx user succ errs msgs).db.history
      = db.history ++ t := by
  induction rows generalizing db idx succ errs msgs with
  | nil => exact ⟨[], by simp [import_rows]⟩
  | cons r rest ih =>
    obtain ⟨t₁, ht₁⟩ := (process_row_history db r user).1
    rcases hp : process_import_row db r user with ⟨db', err⟩
    rw [hp] at ht₁
    cases err with
    | none =>
      obtain ⟨t₂, ht₂⟩ := ih db' (idx + 1) (succ + 1) errs msgs
      refine ⟨t₁ ++ t₂, ?_⟩
      simp only [import_rows, hp]
      rw [ht₂, ht₁, List.append_assoc]
    | some e =>
      obtain ⟨t₂, ht₂⟩ := ih db' (idx + 1) succ (errs + 1)
        (msgs ++ ["Row " ++ toString (idx + 2) ++ ": " ++ e])
      refine ⟨t₁ ++ t₂, ?_⟩
      simp only [import_rows, hp]
      rw [ht₂, ht₁, List.append_assoc]

/-- Counting helper: two mutually exclusive predicates that together
cover a third split its count. -/
theorem countP_split {α : Type} (p q r : α → Bool)
    (hcov : ∀ a, r a = true ↔ (p a = true ∨ q a = true))
    (hdisj : ∀ a, ¬(p a = true ∧ q a = true)) (l : List α) :
    l.countP p + l.countP q = l.countP r := by
  induction l with
  | nil => simp
  | cons a l ih =>
    simp only [List.countP_cons]
    by_cases hp : p a = true
    · have hq : ¬ q a = true := fun h => hdisj a ⟨hp, h⟩
      have hr : r a = true := (hcov a).2 (Or.inl hp)
      simp only [hp, hr, if_pos, if_true]
      rw [if_neg hq]
      omega
    · by_cases hq : q a = true
      · have hr : r a = true := (hcov a).2 (Or.inr hq)
        simp only [hq, hr, if_true]
        rw [if_neg hp]
        omega
      · have hr : ¬ r a = true := fun h => by
          rcases (hcov a).1 h with h1 | h1
          exacts [hp h1, hq h1]
        rw [if_neg hp, if_neg hq, if_neg hr]
        omega

/-- Counting helper: a pointwise-stronger predicate has a smaller
count. -/
theorem countP_le_of_imp {α : Type} (p q : α → Bool)
    (himp : ∀ a, p a = true → q a = true) (l : List α) :
    l.countP p ≤ l.countP q := by
  induction l with
  | nil => simp
  | cons a l ih =>
    simp only [List.countP_cons]
    by_cases hp : p a = true
    · rw [if_pos hp, if_pos (himp a hp)]
      omega
    · rw [if_neg hp]
      by_cases hq : q a = true
      · rw [if_pos hq]
        omega
      · rw [if_neg hq]
        omega

/-- Loop counters: every row is counted exactly once as a success or an
error, and one error string is recorded per counted error. -/
theorem import_rows_counts (rows : List Row) (db : DB)
    (idx user succ errs : Nat) (msgs : List String) :
    (import_rows db rows idx user succ errs msgs).success_count +
      (import_rows db rows idx user succ errs msgs).error_count
      = succ + errs + rows.length ∧
    (import_rows db rows idx user succ errs msgs).errors.length + errs
      = (import_rows db rows idx user succ errs msgs).error_count
        + msgs.length := by
  induction rows generalizing db idx succ errs msgs with
  | nil =>
    refine ⟨by simp [import_rows], ?_⟩
    simp only [import_rows]
    omega
  | cons r rest ih =>
    rcases hp : process_import_row db r user with ⟨db', err⟩
    cases err with
    | none =>
      have h := ih db' (idx + 1) (succ + 1) errs msgs
      simp only [import_rows, hp]
      refine ⟨?_, h.2⟩
      rw [h.1]
      simp [List.length_cons]
      omega
    | some e =>
      have h := ih db' (idx + 1) succ (errs + 1)
        (msgs ++ ["Row " ++ toString (idx + 2) ++ ": " ++ e])
      simp only [import_rows, hp]
      constructor
      · rw [h.1]
        simp [List.length_cons]
        omega
      · have h2 := h.2
        rw [List.length_append] at h2
        simp only [List.length_cons, List.length_nil] at h2
        omega

/-- Replacing, in an asset list, every entry with a given tag by an
asset carrying the same tag preserves the presence of any tag. -/
theorem any_map_replace (l : List Asset) (tag t : String) (a' : Asset)
    (ha : a'.asset_tag = tag)
    (h : l.any (fun x => x.asset_tag = t) = true) :
    (l.map (fun x => if x.asset_tag = tag then a' else x)).any
      (fun x => x.asset_tag = t) = true := by
  induction l with
  | nil => simp at h
  | cons x xs ih =>
    simp only [List.any_cons, Bool.or_eq_true] at h
    simp only [List.map_cons, List.any_cons, Bool.or_eq_true]
    rcases h with h | h
    · left
      by_cases hx : x.asset_tag = tag
      · rw [if_pos hx]
        simp only [decide_eq_true_iff]
        rw [ha, ← hx]
        simpa using h
      · rw [if_neg hx]
        exact h
    · right
      exact ih h

/-- The asset upsert preserves the presence of any existing tag: updates
rewrite the asset in place (same tag), creation appends. -/
theorem update_or_create_hasTag (db : DB) (tag : String) (row : Row)
    (cat loc ven : Option Nat) (cost : Option Int) (user : Nat) (t : String)
    (h : hasTag db t = true) :
    hasTag (update_or_create_asset db tag row cat loc ven cost user).2.1 t
      = true := by
  unfold update_or_create_asset
  split
  next a0 heq =>
    unfold hasTag at h ⊢
    apply any_map_replace
    · have hfs := List.find?_some heq
      have : a0.asset_tag = tag := by simpa using hfs
      simpa [import_defaults] using this
    · exact h
  next heq =>
    unfold hasTag at h ⊢
    simp [List.any_append, h]

/-- The tail of an import row preserves the presence of any existing
tag. -/
theorem finish_import_row_hasTag (db : DB) (row : Row)
    (cat loc ven : Option Nat) (cost : Option Int) (user : Nat) (t : String)
    (h : hasTag db t = true) :
    hasTag (finish_import_row db row cat loc ven cost user).1 t = true := by
  have hu' := update_or_create_hasTag db (pyStrip row.asset_tag) row cat loc
    ven cost user t h
  rcases hu : update_or_create_asset db (pyStrip row.asset_tag) row cat loc
    ven cost user with ⟨a', db', created⟩
  rw [hu] at hu'
  have hdb' : hasTag db' t = true := hu'
  cases created with
  | true =>
    simp only [finish_import_row, hu]
    exact hdb'
  | false =>
    simp only [finish_import_row, hu]
    exact hdb'

/-- One import row — successful or failing — preserves the presence of
any existing tag. -/
theorem process_row_hasTag (db : DB) (row : Row) (user : Nat) (t : String)
    (h : hasTag db t = true) :
    hasTag (process_import_row db row user).1 t = true := by
  unfold process_import_row
  split
  next e heq => exact h
  next cat db₁ heq =>
    have h1a : db₁.assets = db.assets :=
      (get_or_create_category_preserves db row.category _ heq).1
    have h1 : hasTag db₁ t = true := by
      unfold hasTag at h ⊢
      rw [h1a]
      exact h
    split
    next e2 heq2 => exact h1
    next loc db₂ heq2 =>
      have h2a : db₂.assets = db₁.assets :=
        (get_or_create_location_preserves db₁ row.location _ heq2).2.1
      have h2 : hasTag db₂ t = true := by
        unfold hasTag at h1 ⊢
        rw [h2a]
        exact h1
      split
      next e3 heq3 => exact h2
      next ven db₃ heq3 =>
        have h3a : db₃.assets = db₂.assets :=
          (get_or_create_vendor_preserves db₂ row.vendor _ heq3).2.1
        have h3 : hasTag db₃ t = true := by
          unfold hasTag at h2 ⊢
          rw [h3a]
          exact h2
        split
        next hcost =>
          exact finish_import_row_hasTag db₃ row cat loc ven none user t h3
        next s hcost =>
          split
          next hpf => exact h3
          next v hpf =>
            exact finish_import_row_hasTag db₃ row cat loc ven (some v)
              user t h3

/-- The whole import loop preserves the presence of any existing tag. -/
theorem import_rows_hasTag (rows : List Row) (db : DB)
    (idx user succ errs : Nat) (msgs : List String) (t : String)
    (h : hasTag db t = true) :
    hasTag (import_rows db rows idx user succ errs msgs).db t = true := by
  induction rows generalizing db idx succ errs msgs with
  | nil => simpa [import_rows] using h
  | cons r rest ih =>
    have hstep := process_row_hasTag db r user t h
    rcases hp : process_import_row db r user with ⟨db', err⟩
    rw [hp] at hstep
    cases err with
    | none =>
      simp only [import_rows, hp]
      exact ih db' (idx + 1) (succ + 1) errs msgs hstep
    | some e =>
      simp only [import_rows, hp]
      exact ih db' (idx + 1) succ (errs + 1)
        (msgs ++ ["Row " ++ toString (idx + 2) ++ ": " ++ e]) hstep

/-- `errorTexts` distributes over append. -/
theorem errorTexts_append (A B : List Msg) :
    errorTexts (A ++ B) = errorTexts A ++ errorTexts B := by
  unfold errorTexts
  rw [List.filterMap_append]

/-- `errorTexts` recovers the texts of a pure error-message list. -/
theorem errorTexts_map_mError (l : List String) :
    errorTexts (l.map Msg.mError) = l := by
  induction l with
  | nil => rfl
  | cons x xs ih =>
    simp only [List.map_cons]
    unfold errorTexts at ih ⊢
    simp only [List.filterMap_cons]
    rw [ih]

/-- A warning message contributes no error text. -/
theorem errorTexts_warning_cons (w : String) (X : List Msg) :
    errorTexts (Msg.warning w :: X) = errorTexts X := by
  unfold errorTexts
  simp [List.filterMap_cons]

/-- The optional success message contributes no error text. -/
theorem errorTexts_success_part (r : ImportResult) :
    errorTexts (if r.success_count > 0 then
      [Msg.success ("Successfully imported " ++ toString r.success_count
        ++ " assets")]
    else []) = [] := by
  split <;> rfl

end Itam

namespace Itam

/-- Claim C5: `Asset.is_under_warranty` is true iff `warranty_expiry` is
set and is on or after today; in particular it is false when
`warranty_expiry` is null. -/
theorem c5_is_under_warranty_iff (a : Asset) (today : Int) :
    (a.is_under_warranty today = true ↔
      ∃ d, a.warranty_expiry = some d ∧ d ≥ today) ∧
    (a.warranty_expiry = none → a.is_under_warranty today = false) := by
  constructor
  · unfold Asset.is_under_warranty
    cases h : a.warranty_expiry with
    | none => simp
    | some d => simp [decide_eq_true_iff]
  · intro h
    unfold Asset.is_under_warranty
    rw [h]

/-- Closed instance of C5 at concrete assets and dates, including the
null `warranty_expiry` case. -/
theorem c5_is_under_warranty_iff_witness :
    ((Asset.mk 1 "AST001" "Laptop" "" none "" "" none "available" "new"
        none none none none none none (some 10) "" none).is_under_warranty 3
        = true ↔
      ∃ d, (Asset.mk 1 "AST001" "Laptop" "" none "" "" none "available" "new"
        none none none none none none (some 10) "" none).warranty_expiry
          = some d ∧ d ≥ 3) ∧
    (Asset.mk 2 "AST002" "Dock" "" none "" "" none "available" "new"
        none none none none none none none "" none).is_under_warranty 3
      = false := by
  constructor
  · exact (c5_is_under_warranty_iff
      (Asset.mk 1 "AST001" "Laptop" "" none "" "" none "available" "new"
        none none none none none none (some 10) "" none) 3).1
  · exact (c5_is_under_warranty_iff
      (Asset.mk 2 "AST002" "Dock" "" none "" "" none "available" "new"
        none none none none none none none "" none) 3).2 rfl

/-- Claim C2: for every asset and employee, Assign followed by Unassign
leaves the asset with status `available`, no assignee and no assigned
date. -/
theorem c2_assign_unassign_roundtrip (a : Asset) (hist : List AssetHistory)
    (e : Employee) (se₁ se₂ : Bool) (today : Int) (u₁ u₂ : Nat) :
    let r₁ := assign_asset_post a hist (some e) se₁ today u₁
    let r₂ := unassign_asset_post r₁.asset r₁.history se₂ u₂
    r₂.asset.status = "available" ∧ r₂.asset.assigned_to = none ∧
      r₂.asset.assigned_date = none := by
  simp [assign_asset_post, unassign_asset_post]

/-- Claim C3: an Assign POST with an employee selected appends exactly
one history row, with action `assigned`; an Unassign POST on an asset
with an existing assignee (the operation's precondition in the spec)
appends exactly one history row, with action `unassigned`; neither
creates any other row. -/
theorem c3_one_history_row_per_call (a : Asset) (hist : List AssetHistory)
    (e : Employee) (se : Bool) (today : Int) (u : Nat) :
    (∃ r, (assign_asset_post a hist (some e) se today u).history
        = hist ++ [r] ∧ r.action = "assigned") ∧
    (a.assigned_to ≠ none →
      ∃ r, (unassign_asset_post a hist se u).history
        = hist ++ [r] ∧ r.action = "unassigned") := by
  constructor
  · exact ⟨_, rfl, rfl⟩
  · intro h
    cases hcur : a.assigned_to with
    | none => exact absurd hcur h
    | some old =>
      refine ⟨{ asset := a.id, action := "unassigned",
                description := "Asset unassigned from " ++ old.full_name,
                performed_by := some u, old_value := some old.full_name,
                new_value := some "None" }, ?_, rfl⟩
      simp [unassign_asset_post, hcur]

/-- Closed instance of C3: assigning then unassigning a concrete asset
each append one matching history row. -/
theorem c3_one_history_row_per_call_witness :
    let e : Employee := ⟨"EMP001", "Jane", "Roe", "jane@x.io", true⟩
    let a : Asset := ⟨1, "AST001", "Laptop", "", none, "", "", none,
      "assigned", "new", none, some e, some 0, none, none, none, none, "", none⟩
    (∃ r, (assign_asset_post a [] (some e) false 0 7).history
        = [] ++ [r] ∧ r.action = "assigned") ∧
    (∃ r, (unassign_asset_post a [] false 7).history
        = [] ++ [r] ∧ r.action = "unassigned") := by
  intro e a
  refine ⟨(c3_one_history_row_per_call a [] e false 0 7).1, ?_⟩
  exact (c3_one_history_row_per_call a [] e false 0 7).2 (by decide)

/-- Counterexample to C6 as stated: with a prior assignee on record, the
`old_value` written by Assign is `str(old_assignee)` — full name plus
the employee id in parentheses — not the prior assignee's name
(`full_name`). Concretely, for prior assignee John Doe (EMP001) the row
stores "John Doe (EMP001)" while his name is "John Doe". -/
theorem c6_old_value_not_full_name :
    let john : Employee := ⟨"EMP001", "John", "Doe", "john@x.io", true⟩
    let jane : Employee := ⟨"EMP002", "Jane", "Roe", "jane@x.io", true⟩
    let a : Asset := ⟨1, "AST001", "Laptop", "", none, "", "", none,
      "assigned", "new", none, some john, some 0, none, none, none, none,
      "", none⟩
    ∃ r, (assign_asset_post a [] (some jane) false 3 7).history = [r] ∧
      r.old_value = some "John Doe (EMP001)" ∧
      john.full_name = "John Doe" ∧
      r.old_value ≠ some john.full_name := by
  exact ⟨_, rfl, by decide, by decide, by decide⟩

/-- Claim C6 (amended): every Assign writes a history row whose
`old_value` is the prior assignee's string representation
`"first last (employee_id)"` — or `'None'` when the asset was
unassigned — and whose `new_value` is the new assignee's full name. -/
theorem c6_assign_history_values (a : Asset) (hist : List AssetHistory)
    (e : Employee) (se : Bool) (today : Int) (u : Nat) :
    ∃ r, (assign_asset_post a hist (some e) se today u).history
        = hist ++ [r] ∧
      (∀ o, a.assigned_to = some o → r.old_value = some o.str) ∧
      (a.assigned_to = none → r.old_value = some "None") ∧
      r.new_value = some e.full_name := by
  refine ⟨_, rfl, ?_, ?_, rfl⟩
  · intro o ho
    simp [ho]
  · intro ho
    simp [ho]

/-- Closed instance of amended C6 at concrete employees. -/
theorem c6_assign_history_values_witness :
    let john : Employee := ⟨"EMP001", "John", "Doe", "john@x.io", true⟩
    let jane : Employee := ⟨"EMP002", "Jane", "Roe", "jane@x.io", true⟩
    let a : Asset := ⟨1, "AST001", "Laptop", "", none, "", "", none,
      "assigned", "new", none, some john, some 0, none, none, none, none,
      "", none⟩
    ∃ r, (assign_asset_post a [] (some jane) false 3 7).history = [] ++ [r] ∧
      r.old_value = some john.str ∧ r.new_value = some jane.full_name := by
  intro john jane a
  obtain ⟨r, hr, hold, _, hnew⟩ :=
    c6_assign_history_values a [] jane false 3 7
  exact ⟨r, hr, hold john rfl, hnew⟩

/-- Claim C10: an Unassign POST on an asset with no current assignee
changes nothing — asset untouched, no history row, no email — and still
redirects to the asset detail page. -/
theorem c10_unassign_without_assignee_noop (a : Asset)
    (hist : List AssetHistory) (se : Bool) (u : Nat)
    (h : a.assigned_to = none) :
    unassign_asset_post a hist se u
      = ⟨a, hist, [], "redirect:asset_detail"⟩ := by
  unfold unassign_asset_post
  rw [h]

/-- Closed instance of C10 at a concrete unassigned asset. -/
theorem c10_unassign_without_assignee_noop_witness :
    unassign_asset_post
      ⟨1, "AST001", "Laptop", "", none, "", "", none, "available", "new",
        none, none, none, none, none, none, none, "", none⟩ [] true 7
      = ⟨⟨1, "AST001", "Laptop", "", none, "", "", none, "available", "new",
        none, none, none, none, none, none, none, "", none⟩, [], [],
        "redirect:asset_detail"⟩ :=
  c10_unassign_without_assignee_noop _ [] true 7 rfl

/-- Counterexample to C7 as stated: the `reports` view's `valid` bucket
(`warranty_expiry >= today`) already contains every asset of the
`expiring` bucket (`today <= warranty_expiry <= today + 30`), so the
buckets are not disjoint.  With today = 0 and one asset whose warranty
expires on day 10, the asset is counted in both `valid` and `expiring`
and the three counts sum to 2, not to the 1 asset with a warranty set. -/
theorem c7_warranty_buckets_overlap :
    let a : Asset := ⟨1, "AST001", "Laptop", "", none, "", "", none,
      "available", "new", none, none, none, none, none, none, some 10,
      "", none⟩
    warranty_valid [a] 0 = 1 ∧ warranty_expiring [a] 0 = 1 ∧
      warranty_expired [a] 0 = 0 ∧ warranty_set_count [a] = 1 ∧
      warranty_valid [a] 0 + warranty_expiring [a] 0 + warranty_expired [a] 0
        ≠ warranty_set_count [a] := by
  decide

/-- Claim C7 (amended): relative to the current date, every asset with a
non-null `warranty_expiry` is counted in exactly one of the `valid`
(`>= today`) and `expired` (`< today`) buckets, so those two counts sum
to the number of assets with a warranty set; the `expiring within 30
days` bucket is a subset of `valid`, not a third disjoint bucket. -/
theorem c7_warranty_partition (assets : List Asset) (today : Int) :
    warranty_valid assets today + warranty_expired assets today
        = warranty_set_count assets ∧
    warranty_expiring assets today ≤ warranty_valid assets today := by
  constructor
  · apply countP_split
    · intro a
      cases h : a.warranty_expiry with
      | none => simp
      | some d =>
        simp only [Option.isSome_some, decide_eq_true_iff]
        constructor
        · intro _
          omega
        · intro _
          trivial
    · intro a
      cases h : a.warranty_expiry with
      | none => simp
      | some d =>
        simp only [decide_eq_true_iff]
        omega
  · apply countP_le_of_imp
    intro a
    cases h : a.warranty_expiry with
    | none => simp
    | some d =>
      simp only [decide_eq_true_iff]
      omega

/-- Claim C8: during one bulk import, when no Category with the
(stripped) name exists beforehand and some row's category cell carries
that name, the import ends with exactly one Category of that name — the
first such row creates it and every later row with the same name reuses
it. -/
theorem c8_category_created_once (db : DB) (rows : List Row) (user : Nat)
    (n : String) (h0 : countCat db.categories n = 0)
    (h1 : rows.any (fun r => row_uses_category r n) = true) :
    countCat (bulk_import db rows user).db.categories n = 1 := by
  unfold bulk_import
  rw [import_rows_category_count]
  simp [h0, h1]

/-- Closed instance of C8: two rows with category cells "Laptop" and
" Laptop " on an empty store end with exactly one "Laptop" category. -/
theorem c8_category_created_once_witness :
    let db0 : DB := ⟨[], [], [], [], [], 1, 1, 1, 1⟩
    let r1 : Row := ⟨"A1", "Dell 5400", none, some "Laptop", none, none,
      none, none, none, none, none, none, none⟩
    let r2 : Row := ⟨"A2", "HP 840", none, some " Laptop ", none, none,
      none, none, none, none, none, none, none⟩
    countCat (bulk_import db0 [r1, r2] 7).db.categories "Laptop" = 1 := by
  intro db0 r1 r2
  exact c8_category_created_once db0 [r1, r2] 7 "Laptop" (by decide)
    (by decide)

/-- Counterexample to C1 as stated: a bulk-import row whose asset_tag
already exists is a mutating action (it rewrites the asset's fields via
`update_or_create`) yet appends no AssetHistory row, because the
`created` history write is guarded by `if created:`. -/
theorem c1_bulk_update_without_history :
    let a0 : Asset := ⟨1, "A1", "Old name", "", none, "", "", none,
      "available", "new", none, none, none, none, none, none, none, "",
      none⟩
    let db0 : DB := ⟨[a0], [], [], [], [], 2, 1, 1, 1⟩
    let row : Row := ⟨"A1", "New name", none, none, none, none, none,
      none, none, none, none, none, none⟩
    (process_import_row db0 row 7).2 = none ∧
    (process_import_row db0 row 7).1.assets.map Asset.name
      = ["New name"] ∧
    (process_import_row db0 row 7).1.history = [] := by
  decide

/-- Claim C1 (amended): Assign, Unassign (of an assigned asset) and
asset creation — a bulk-import row with a fresh tag, or an admin add —
each append exactly one AssetHistory row; asset edits via a bulk-import
row with an existing tag or via the admin change form append none. -/
theorem c1_history_per_mutation :
    (∀ (a : Asset) (hist : List AssetHistory) (e : Employee) (se : Bool)
        (today : Int) (u : Nat),
      (assign_asset_post a hist (some e) se today u).history.length
        = hist.length + 1) ∧
    (∀ (a : Asset) (hist : List AssetHistory) (se : Bool) (u : Nat),
      a.assigned_to ≠ none →
      (unassign_asset_post a hist se u).history.length
        = hist.length + 1) ∧
    (∀ (db : DB) (row : Row) (user : Nat),
      (process_import_row db row user).2 = none →
      (hasTag db (pyStrip row.asset_tag) = false →
        (process_import_row db row user).1.history.length
          = db.history.length + 1) ∧
      (hasTag db (pyStrip row.asset_tag) = true →
        (process_import_row db row user).1.history = db.history)) ∧
    (∀ (db : DB) (obj : Asset) (user : Nat),
      (admin_save_model db obj false user).history.length
        = db.history.length + 1) ∧
    (∀ (db : DB) (obj : Asset) (user : Nat),
      (admin_save_model db obj true user).history = db.history) := by
  refine ⟨?_, ?_, ?_, ?_, ?_⟩
  · intro a hist e se today u
    simp [assign_asset_post]
  · intro a hist se u h
    cases hcur : a.assigned_to with
    | none => exact absurd hcur h
    | some old => simp [unassign_asset_post, hcur]
  · intro db row user hok
    have hp := (process_row_history db row user).2 hok
    constructor
    · intro ht
      obtain ⟨r, hr, _⟩ := hp.2 ht
      rw [hr]
      simp
    · intro ht
      exact hp.1 ht
  · intro db obj user
    simp [admin_save_model]
  · intro db obj user
    simp [admin_save_model]

/-- Closed instance of amended C1: importing a fresh tag into an empty
store appends exactly one history row; unassigning an assigned asset
appends exactly one row. -/
theorem c1_history_per_mutation_witness :
    let db0 : DB := ⟨[], [], [], [], [], 1, 1, 1, 1⟩
    let row : Row := ⟨"A1", "Dell 5400", none, none, none, none, none,
      none, none, none, none, none, none⟩
    let e : Employee := ⟨"EMP001", "Jane", "Roe", "jane@x.io", true⟩
    let a : Asset := ⟨1, "AST001", "Laptop", "", none, "", "", none,
      "assigned", "new", none, some e, some 0, none, none, none, none, "",
      none⟩
    (process_import_row db0 row 7).1.history.length = 1 ∧
    (unassign_asset_post a [] false 7).history.length = 1 := by
  intro db0 row e a
  constructor
  · have h := (c1_history_per_mutation.2.2.1 db0 row 7 (by decide)).1
      (by decide)
    simpa using h
  · have h := c1_history_per_mutation.2.1 a [] false 7 (by decide)
    simpa using h

/-- Counterexample to C4 as stated: deleting an Asset — reachable
through the registered admin — cascades (models.py,
`on_delete=CASCADE`) and deletes the asset's AssetHistory rows, so
existing history rows do not survive every reachable operation
sequence. -/
theorem c4_delete_cascades_history :
    let a0 : Asset := ⟨1, "A1", "Laptop", "", none, "", "", none,
      "available", "new", none, none, none, none, none, none, none, "",
      none⟩
    let h0 : AssetHistory := ⟨1, "created", "Asset A1 was created",
      some 7, none, none⟩
    let db0 : DB := ⟨[a0], [h0], [], [], [], 2, 1, 1, 1⟩
    db0.history ≠ [] ∧ (delete_asset db0 1).history = [] := by
  decide

/-- Claim C4 (amended): no operation ever updates an AssetHistory row in
place — assign, unassign, bulk import and admin saves strictly append to
the history table — and the only delete path is the Asset-deletion
cascade, which removes exactly the deleted asset's rows and leaves every
other row intact (the surviving history is a sublist of the old). -/
theorem c4_history_append_only :
    (∀ (a : Asset) (hist : List AssetHistory) (emp : Option Employee)
        (se : Bool) (today : Int) (u : Nat),
      ∃ t, (assign_asset_post a hist emp se today u).history
        = hist ++ t) ∧
    (∀ (a : Asset) (hist : List AssetHistory) (se : Bool) (u : Nat),
      ∃ t, (unassign_asset_post a hist se u).history = hist ++ t) ∧
    (∀ (db : DB) (rows : List Row) (user : Nat),
      ∃ t, (bulk_import db rows user).db.history = db.history ++ t) ∧
    (∀ (db : DB) (obj : Asset) (change : Bool) (user : Nat),
      ∃ t, (admin_save_model db obj change user).history
        = db.history ++ t) ∧
    (∀ (db : DB) (pk : Nat),
      (delete_asset db pk).history
          = db.history.filter (fun h => h.asset ≠ pk) ∧
      ((delete_asset db pk).history).Sublist db.history) := by
  refine ⟨?_, ?_, ?_, ?_, ?_⟩
  · intro a hist emp se today u
    cases emp with
    | none => exact ⟨[], by simp [assign_asset_post]⟩
    | some e => exact ⟨_, rfl⟩
  · intro a hist se u
    cases hcur : a.assigned_to with
    | none => exact ⟨[], by simp [unassign_asset_post, hcur]⟩
    | some old =>
      refine ⟨[AssetHistory.mk a.id "unassigned"
        ("Asset unassigned from " ++ old.full_name) (some u)
        (some old.full_name) (some "None")], ?_⟩
      simp [unassign_asset_post, hcur]
  · intro db rows user
    exact import_rows_history rows db 0 user 0 0 []
  · intro db obj change user
    cases change with
    | false =>
      refine ⟨[AssetHistory.mk db.next_asset_id "created"
        ("Asset " ++ obj.asset_tag ++ " was created") (some user)
        none none], ?_⟩
      simp [admin_save_model]
    | true =>
      exact ⟨[], by simp [admin_save_model]⟩
  · intro db pk
    exact ⟨rfl, List.filter_sublist _⟩

/-- Claim C9: in bulk import every row is processed — success and error
counts sum to the row count, so a failing row does not stop the loop —
each failure records exactly one error string, rows already imported
stay imported (any tag present at any point survives to the end of the
batch, which is never rolled back), and exactly the first 5 collected
error strings are surfaced as user-facing error messages. -/
theorem c9_bulk_import_error_handling (db : DB) (rows : List Row)
    (user : Nat) :
    (bulk_import db rows user).success_count +
      (bulk_import db rows user).error_count = rows.length ∧
    (bulk_import db rows user).errors.length
      = (bulk_import db rows user).error_count ∧
    (∀ t, hasTag db t = true →
      hasTag (bulk_import db rows user).db t = true) ∧
    errorTexts (bulk_import_messages (bulk_import db rows user))
      = (bulk_import db rows user).errors.take 5 := by
  have hc := import_rows_counts rows db 0 user 0 0 []
  have herrlen : (bulk_import db rows user).errors.length
      = (bulk_import db rows user).error_count := by
    have h2 := hc.2
    simp only [List.length_nil, Nat.add_zero] at h2
    unfold bulk_import
    exact h2
  refine ⟨by simpa using hc.1, herrlen, ?_, ?_⟩
  · intro t ht
    exact import_rows_hasTag rows db 0 user 0 0 [] t ht
  · by_cases he : (bulk_import db rows user).error_count > 0
    · unfold bulk_import_messages
      rw [if_pos he, errorTexts_append, errorTexts_success_part,
        errorTexts_warning_cons, errorTexts_map_mError]
      simp
    · have he0 : (bulk_import db rows user).error_count = 0 := by omega
      have hnil : (bulk_import db rows user).errors = [] := by
        have : (bulk_import db rows user).errors.length = 0 := by
          rw [herrlen, he0]
        exact List.length_eq_zero.mp this
      unfold bulk_import_messages
      rw [if_neg he, hnil, List.append_nil, errorTexts_success_part]
      rfl

/-- Closed instance of C9: importing one good row and one row with a
non-numeric cost into a store holding tag "A0" keeps "A0", counts one
success and one error. -/
theorem c9_bulk_import_error_handling_witness :
    let a0 : Asset := ⟨1, "A0", "Server", "", none, "", "", none,
      "available", "new", none, none, none, none, none, none, none, "",
      none⟩
    let db0 : DB := ⟨[a0], [], [], [], [], 2, 1, 1, 1⟩
    let r1 : Row := ⟨"A1", "Dell 5400", none, none, none, none, none,
      none, none, none, none, none, none⟩
    let r2 : Row := ⟨"A2", "HP 840", none, none, none, none, none, none,
      none, none, none, some "abc", none⟩
    hasTag (bulk_import db0 [r1, r2] 7).db "A0" = true ∧
    (bulk_import db0 [r1, r2] 7).success_count +
      (bulk_import db0 [r1, r2] 7).error_count = 2 := by
  intro a0 db0 r1 r2
  refine ⟨(c9_bulk_import_error_handling db0 [r1, r2] 7).2.2.1 "A0"
    (by decide), ?_⟩
  exact (c9_bulk_import_error_handling db0 [r1, r2] 7).1

end Itam
